import Mathlib

/-!
Shallow embedding of the LiBoard move-recognition core, translated from
liboard/init (class LiBoard) and liboard/move_recognition.py
(classes MoveRecognizer and DoubleSidedMoveRecognizer).

Modelling conventions:

* An occupancy snapshot (a bitstring Bits value of length 64) is modelled by
  the natural number that is its uint value.  Square s (a1 = 0 ... h8 = 63 in
  python-chess numbering) is occupied iff testBit s holds of that number.
  This agrees with the decoding in the source, which maps wire bit i
  (MSB first) to square 63 - i, because wire bit i of an 8-byte frame is
  bit 63 - i of the uint.  Equality of two length-64 Bits values is equality
  of their uint values.

* Python sets of square indices are modelled by canonically sorted,
  duplicate-free lists in ascending order.  Python fixes no iteration order
  for sets; the model fixes ascending square order, so first below always
  means first in ascending-order iteration.

* The legal-chess-rules oracle (a python-chess Board) is an external
  collaborator of this repository; it is modelled by the abstract interface
  ChessAPI exposing exactly the operations the source calls on it.
  Board.find_move raises ValueError when no legal move connects the squares;
  the model returns none for that case, as the source converts the exception
  to None in find_candidate_move.

* Calls to time_ns are modelled by an explicit now argument.

* Registered handlers are modelled as optional boolean-valued functions; as
  in the source, a handler is invoked and its result discarded.  The returned
  Event list records which handler notifications took place.
-/

/-- The fixed starting-position pattern, hex FFFF00000000FFFF (LERF). -/
def STARTING_POSITION : Nat := 0xFFFF00000000FFFF

/-- Squares occupied in a snapshot, as an ascending list.  Mirrors
    get_occupied_squares / the occupied_squares field of class Position:
    the set of 63 - i over all wire bit indices i that are set, which equals
    the set of squares s with testBit s of the uint value. -/
def occupiedSquares (bits : Nat) : List Nat :=
  (List.range 64).filter (fun s => bits.testBit s)

/-- Python set difference (set.difference) on square lists. -/
def sqDiff (l1 l2 : List Nat) : List Nat :=
  l1.filter (fun s => decide (¬ s ∈ l2))

/-- Python set intersection (the & operator / set.intersection) on square lists. -/
def sqInter (l1 l2 : List Nat) : List Nat :=
  l1.filter (fun s => decide (s ∈ l2))

/-- Python set union (set.update) on square lists, kept in canonical ascending
    form.  Both arguments only ever hold squares in 0..63. -/
def sqUnion (l1 l2 : List Nat) : List Nat :=
  (List.range 64).filter (fun s => decide (s ∈ l1 ∨ s ∈ l2))

/-- The external legal-chess-rules oracle (python-chess Board), as the
    abstract interface of exactly the operations the source uses.
    B is the board state type, M the move type (both opaque to the core). -/
structure ChessAPI (B M : Type) where
  occupied : B → Nat
  findMove : B → Nat → Nat → Option M
  isCapture : B → M → Bool
  isCastling : B → M → Bool
  isEnPassant : B → M → Bool
  isLegal : B → M → Bool
  push : B → M → B
  reset : B → B

/-- An outbound notification: a start-handler call or a move-handler call
    with the recognized move. -/
inductive Event (M : Type) where
  | start : Event M
  | move : M → Event M
deriving DecidableEq

variable {B M : Type}

/-- find_candidate_move (identical in both source classes): Board.find_move
    with ValueError converted to None. -/
def findCandidateMove (api : ChessAPI B M) (b : B) (from_square to_square : Nat) :
    Option M :=
  api.findMove b from_square to_square

/-- The shared shape of the three candidate loops in MoveRecognizer.find_move:
    walk a list of (from, to) pairs, and return the first move that
    find_candidate_move yields and that satisfies the category predicate p. -/
def candidateLoop (api : ChessAPI B M) (b : B) (p : M → Bool) :
    List (Nat × Nat) → Option M
  | [] => none
  | c :: rest =>
    match findCandidateMove api b c.1 c.2 with
    | some m => if p m then some m else candidateLoop api b p rest
    | none => candidateLoop api b p rest

/-- MoveRecognizer.find_move: classify the delta between known and physical
    occupancy.  The argument order (appearances, disappearances, temp_lifted)
    follows the source.  The branches, first matching rule wins:
    1 disappearance and 1 appearance (normal move, accepted when neither a
    capture nor castling); 1 disappearance, 0 appearances, nonempty
    temp_lifted (simple capture); 2 disappearances and 1 appearance
    (en passant); 2 disappearances and 2 appearances (castling, all 4 pairs
    in outer-from inner-to order); anything else yields None. -/
def MoveRecognizer.find_move (api : ChessAPI B M) (b : B)
    (appearances disappearances temp_lifted : List Nat) : Option M :=
  match disappearances, appearances with
  | [f], [a] =>
    match findCandidateMove api b f a with
    | some m => if !api.isCapture b m && !api.isCastling b m then some m else none
    | none => none
  | [f], [] =>
    if temp_lifted = [] then none
    else candidateLoop api b (api.isCapture b) (temp_lifted.map (fun t => (f, t)))
  | [f1, f2], [a] =>
    candidateLoop api b (api.isEnPassant b) [(f1, a), (f2, a)]
  | [f1, f2], [a1, a2] =>
    candidateLoop api b (api.isCastling b) [(f1, a1), (f1, a2), (f2, a1), (f2, a2)]
  | _, _ => none

/-- State of a DoubleSidedMoveRecognizer: the oracle board, the configured
    move_delay, the physical position bits, its timestamp, the pos_checked
    flag (Recognition Gate) and the lifted set. -/
structure DSMRState (B : Type) where
  board : B
  moveDelay : Nat
  physical : Nat
  timestamp : Nat
  posChecked : Bool
  lifted : List Nat
deriving DecidableEq

/-- DoubleSidedMoveRecognizer.start_game: reset the oracle board, clear the
    lifted set, call the start handler (if registered) with the board.
    Neither the physical position, nor its timestamp, nor pos_checked is
    touched. -/
def DSMR.start_game (api : ChessAPI B M) (sh : Option (B → Bool))
    (s : DSMRState B) : DSMRState B × List (Event M) :=
  let b2 := api.reset s.board
  let s2 := { s with board := b2, lifted := [] }
  let _ := sh.map (fun h => h b2)
  (s2, if sh.isSome then [Event.start] else [])

/-- DoubleSidedMoveRecognizer.new_board_data: store the snapshot as the
    physical position; on the starting pattern delegate to start_game and
    return; otherwise set the timestamp, clear pos_checked, and then execute
    the line that adds the newly vacated squares to the lifted set.  That
    line is written with the += operator on two Python set values; sets
    support neither iadd nor add, so it raises TypeError.  The error branch
    models the raised TypeError and carries the object state at the moment
    of the raise (the three preceding field mutations have happened, the
    lifted set is unchanged). -/
def DSMR.new_board_data (api : ChessAPI B M) (sh : Option (B → Bool))
    (now bits : Nat) (s : DSMRState B) :
    Except (DSMRState B) (DSMRState B × List (Event M)) :=
  let s1 := { s with physical := bits }
  if bits = STARTING_POSITION then
    .ok (DSMR.start_game api sh s1)
  else
    .error { s1 with timestamp := now, posChecked := false }

/-- The guard of DoubleSidedMoveRecognizer.tick: pos_checked unset, the
    debounce delay elapsed since the physical-position timestamp, and the
    physical position differing from the board occupancy. -/
def DSMR.due (api : ChessAPI B M) (now : Nat) (s : DSMRState B) : Bool :=
  !s.posChecked && decide (s.timestamp + s.moveDelay ≤ now)
    && decide (s.physical ≠ api.occupied s.board)

/-- DoubleSidedMoveRecognizer.tick: when due, set pos_checked, compute the
    appeared / disappeared / temporarily-lifted square sets, run find_move,
    and on a match push the move on the oracle board, clear the lifted set
    and call the move handler.  No legality re-check happens here. -/
def DSMR.tick (api : ChessAPI B M) (mh : Option (B → M → Bool)) (now : Nat)
    (s : DSMRState B) : DSMRState B × List (Event M) :=
  if DSMR.due api now s then
    let s1 := { s with posChecked := true }
    let appearances :=
      sqDiff (occupiedSquares s.physical) (occupiedSquares (api.occupied s.board))
    let disappearances :=
      sqDiff (occupiedSquares (api.occupied s.board)) (occupiedSquares s.physical)
    let temp_lifted := sqInter s.lifted (occupiedSquares s.physical)
    match MoveRecognizer.find_move api s.board appearances disappearances temp_lifted with
    | some m =>
      let b2 := api.push s.board m
      let _ := mh.map (fun h => h b2 m)
      ({ s1 with board := b2, lifted := [] },
       if mh.isSome then [Event.move m] else [])
    | none => (s1, [])
  else (s, [])

/-- A run of tick calls at the given times, with no frame arriving in
    between. -/
def DSMR.runTicks (api : ChessAPI B M) (mh : Option (B → M → Bool)) :
    DSMRState B → List Nat → DSMRState B
  | s, [] => s
  | s, t :: ts => DSMR.runTicks api mh (DSMR.tick api mh t s).1 ts

/-- State of a LiBoard object: the oracle board (chessboard), the configured
    move_delay in milliseconds, known_position_data, physical_position_data,
    last_change, pos_checked and lifted_pieces. -/
structure LBState (B : Type) where
  board : B
  moveDelay : Nat
  known : Nat
  physical : Nat
  lastChange : Nat
  posChecked : Bool
  lifted : List Nat
deriving DecidableEq

/-- LiBoard.start_game: reset the chessboard, reset known_position_data to
    the starting pattern, clear lifted_pieces, call the start handler (if
    registered) with the updated object.  Neither physical_position_data nor
    pos_checked nor last_change is touched. -/
def LiBoard.start_game (api : ChessAPI B M) (sh : Option (LBState B → Bool))
    (s : LBState B) : LBState B × List (Event M) :=
  let s2 := { s with board := api.reset s.board, known := STARTING_POSITION,
                     lifted := [] }
  let _ := sh.map (fun h => h s2)
  (s2, if sh.isSome then [Event.start] else [])

/-- LiBoard.get_board_data: frame = none models fewer than 8 buffered bytes
    (nothing happens).  With a full frame, store it as
    physical_position_data; on the starting pattern delegate to start_game
    and return; otherwise clear pos_checked, set last_change, and add to
    lifted_pieces every square occupied in known_position_data but not in
    the new physical_position_data. -/
def LiBoard.get_board_data (api : ChessAPI B M) (sh : Option (LBState B → Bool))
    (now : Nat) (frame : Option Nat) (s : LBState B) :
    LBState B × List (Event M) :=
  match frame with
  | none => (s, [])
  | some bits =>
    let s1 := { s with physical := bits }
    if bits = STARTING_POSITION then
      LiBoard.start_game api sh s1
    else
      ({ s1 with posChecked := false, lastChange := now,
                 lifted := sqUnion s1.lifted
                   (sqDiff (occupiedSquares s1.known)
                     (occupiedSquares s1.physical)) }, [])

/-- LiBoard.make_move: if the move is in the legal moves of the chessboard,
    set known_position_data to physical_position_data, clear lifted_pieces,
    push the move, call the move handler (if registered) and return True;
    otherwise change nothing and return False. -/
def LiBoard.make_move (api : ChessAPI B M) (mh : Option (LBState B → M → Bool))
    (m : M) (s : LBState B) : LBState B × Bool × List (Event M) :=
  if api.isLegal s.board m then
    let s2 := { s with known := s.physical, lifted := [],
                       board := api.push s.board m }
    let _ := mh.map (fun h => h s2 m)
    (s2, true, if mh.isSome then [Event.move m] else [])
  else
    (s, false, [])

/-- The simple-capture loop of LiBoard.generate_move: for each temporarily
    lifted square, take a candidate capture and return as soon as make_move
    succeeds; a failed make_move changes nothing (it returns the state
    unaltered), so the loop continues on the same state. -/
def LiBoard.tryCaptures (api : ChessAPI B M) (mh : Option (LBState B → M → Bool))
    (from_square : Nat) (s : LBState B) :
    List Nat → LBState B × Bool × List (Event M)
  | [] => (s, false, [])
  | tlp :: rest =>
    match findCandidateMove api s.board from_square tlp with
    | some m =>
      if api.isCapture s.board m then
        match LiBoard.make_move api mh m s with
        | (s2, true, ev) => (s2, true, ev)
        | (_, false, _) => LiBoard.tryCaptures api mh from_square s rest
      else LiBoard.tryCaptures api mh from_square s rest
    | none => LiBoard.tryCaptures api mh from_square s rest

/-- The en-passant loop of LiBoard.generate_move, over the two disappeared
    squares as origins with the appeared square as destination. -/
def LiBoard.tryEnPassants (api : ChessAPI B M) (mh : Option (LBState B → M → Bool))
    (to_square : Nat) (s : LBState B) :
    List Nat → LBState B × Bool × List (Event M)
  | [] => (s, false, [])
  | f :: rest =>
    match findCandidateMove api s.board f to_square with
    | some m =>
      if api.isEnPassant s.board m then
        match LiBoard.make_move api mh m s with
        | (s2, true, ev) => (s2, true, ev)
        | (_, false, _) => LiBoard.tryEnPassants api mh to_square s rest
      else LiBoard.tryEnPassants api mh to_square s rest
    | none => LiBoard.tryEnPassants api mh to_square s rest

/-- Inner loop of the castling branch of LiBoard.generate_move: over the
    appeared squares for a fixed origin.  On the first candidate classified
    as castling the source returns the result of make_move directly (even
    when make_move fails), which ends the whole search; modelled by the
    some result. -/
def LiBoard.tryCastlingsInner (api : ChessAPI B M)
    (mh : Option (LBState B → M → Bool)) (from_square : Nat) (s : LBState B) :
    List Nat → Option (LBState B × Bool × List (Event M))
  | [] => none
  | t :: rest =>
    match findCandidateMove api s.board from_square t with
    | some m =>
      if api.isCastling s.board m then some (LiBoard.make_move api mh m s)
      else LiBoard.tryCastlingsInner api mh from_square s rest
    | none => LiBoard.tryCastlingsInner api mh from_square s rest

/-- Outer loop of the castling branch of LiBoard.generate_move, over the
    disappeared squares as origins. -/
def LiBoard.tryCastlings (api : ChessAPI B M)
    (mh : Option (LBState B → M → Bool)) (s : LBState B) (app : List Nat) :
    List Nat → LBState B × Bool × List (Event M)
  | [] => (s, false, [])
  | f :: rest =>
    match LiBoard.tryCastlingsInner api mh f s app with
    | some r => r
    | none => LiBoard.tryCastlings api mh s app rest

/-- LiBoard.generate_move: set pos_checked, compute the delta between the
    last known and the physical position, and dispatch on its shape.  The
    local names current_position_occupied_squares and
    known_position_occupied_squares are swapped in the source relative to
    what they hold (the first is computed from known_position_data, the
    second from physical_position_data); they are kept as in the source, and
    the computed disappearances / appearances values agree with the source. -/
def LiBoard.generate_move (api : ChessAPI B M)
    (mh : Option (LBState B → M → Bool)) (s : LBState B) :
    LBState B × Bool × List (Event M) :=
  let s0 := { s with posChecked := true }
  let current_position_occupied_squares := occupiedSquares s0.known
  let known_position_occupied_squares := occupiedSquares s0.physical
  let disappearances :=
    sqDiff current_position_occupied_squares known_position_occupied_squares
  let appearances :=
    sqDiff known_position_occupied_squares current_position_occupied_squares
  let temporarily_lifted_pieces :=
    sqInter s0.lifted known_position_occupied_squares
  match disappearances, appearances with
  | [f], [a] =>
    match findCandidateMove api s0.board f a with
    | some m =>
      if !api.isCapture s0.board m && !api.isCastling s0.board m then
        LiBoard.make_move api mh m s0
      else (s0, false, [])
    | none => (s0, false, [])
  | [f], [] =>
    if temporarily_lifted_pieces = [] then (s0, false, [])
    else LiBoard.tryCaptures api mh f s0 temporarily_lifted_pieces
  | [f1, f2], [a] => LiBoard.tryEnPassants api mh a s0 [f1, f2]
  | [f1, f2], [a1, a2] => LiBoard.tryCastlings api mh s0 [a1, a2] [f1, f2]
  | _, _ => (s0, false, [])

/-- The guard of LiBoard.update: physical differs from known, the delay
    (configured in milliseconds, compared in nanoseconds) has elapsed since
    last_change, and pos_checked is unset. -/
def LiBoard.isDue (now : Nat) (s : LBState B) : Bool :=
  decide (s.physical ≠ s.known)
    && decide (s.lastChange + s.moveDelay * 1000000 ≤ now)
    && !s.posChecked

/-- LiBoard.update: ingest pending board data, then attempt move generation
    when due. -/
def LiBoard.update (api : ChessAPI B M) (sh : Option (LBState B → Bool))
    (mh : Option (LBState B → M → Bool)) (now : Nat) (frame : Option Nat)
    (s : LBState B) : LBState B × List (Event M) :=
  let r1 := LiBoard.get_board_data api sh now frame s
  if LiBoard.isDue now r1.1 then
    let r2 := LiBoard.generate_move api mh r1.1
    (r2.1, r1.2 ++ r2.2.2)
  else r1

/-- Concrete oracle instance for witnesses: one occupied square (a1), no
    legal move between any two squares. -/
def apiN : ChessAPI Nat Nat where
  occupied := fun _ => 1
  findMove := fun _ _ _ => none
  isCapture := fun _ _ => false
  isCastling := fun _ _ => false
  isEnPassant := fun _ _ => false
  isLegal := fun _ _ => true
  push := fun b _ => b + 1
  reset := fun _ => 0

/-- Concrete oracle that proposes move 42 between any two squares but
    reports every move illegal. -/
def apiB : ChessAPI Nat Nat :=
  { apiN with findMove := fun _ _ _ => some 42, isLegal := fun _ _ => false }

/-- Concrete oracle that proposes legal quiet move 5 between any two
    squares. -/
def apiC : ChessAPI Nat Nat :=
  { apiN with findMove := fun _ _ _ => some 5 }

/-- Concrete oracle that proposes legal capture move 7 between any two
    squares. -/
def apiCap : ChessAPI Nat Nat :=
  { apiN with findMove := fun _ _ _ => some 7, isCapture := fun _ _ => true }

/-- A concrete handler used in witnesses. -/
def gT : Nat → Nat → Bool := fun _ _ => true

/-- Concrete LiBoard state whose Recognition Gate is set, used against the
    game-start claim. -/
def cex2 : LBState Nat :=
  { board := 3, moveDelay := 0, known := 7, physical := 9, lastChange := 4,
    posChecked := true, lifted := [2] }

/-- Concrete LiBoard state after a failed recognition attempt: physical
    position 2 (square b1), known position 1 (square a1), gate set. -/
def cex4 : LBState Nat :=
  { board := 0, moveDelay := 1, known := 1, physical := 2, lastChange := 0,
    posChecked := true, lifted := [] }

/-- Concrete LiBoard state diverging by one disappearance (a1) and one
    appearance (b1), gate unset. -/
def lb5 : LBState Nat :=
  { board := 0, moveDelay := 0, known := 1, physical := 2, lastChange := 0,
    posChecked := false, lifted := [] }

/-- Concrete recognizer state for the debounce run: diverged, gate unset,
    timestamp 0, delay 5. -/
def dsmr3 : DSMRState Nat :=
  { board := 0, moveDelay := 5, physical := 2, timestamp := 0,
    posChecked := false, lifted := [] }

/-- Concrete recognizer state: diverged (physical b1 versus board occupancy
    a1), gate unset, due immediately. -/
def dsmr8 : DSMRState Nat :=
  { board := 0, moveDelay := 0, physical := 2, timestamp := 0,
    posChecked := false, lifted := [] }

/-- Concrete recognizer state for the round-trip witness, identical shape to
    dsmr8. -/
def dsmr9 : DSMRState Nat :=
  { board := 0, moveDelay := 0, physical := 2, timestamp := 0,
    posChecked := false, lifted := [] }

/-- Concrete fresh recognizer state for the frame-intake witness. -/
def dsmr1 : DSMRState Nat :=
  { board := 0, moveDelay := 0, physical := STARTING_POSITION, timestamp := 0,
    posChecked := false, lifted := [] }

theorem mem_occupiedSquares {bits x : Nat} :
    x ∈ occupiedSquares bits ↔ x < 64 ∧ bits.testBit x = true := by
  simp [occupiedSquares, List.mem_filter, List.mem_range]

theorem mem_sqDiff {l1 l2 : List Nat} {x : Nat} :
    x ∈ sqDiff l1 l2 ↔ x ∈ l1 ∧ x ∉ l2 := by
  simp [sqDiff, List.mem_filter]

theorem mem_sqInter {l1 l2 : List Nat} {x : Nat} :
    x ∈ sqInter l1 l2 ↔ x ∈ l1 ∧ x ∈ l2 := by
  simp [sqInter, List.mem_filter]

theorem mem_sqUnion {l1 l2 : List Nat} {x : Nat} :
    x ∈ sqUnion l1 l2 ↔ x < 64 ∧ (x ∈ l1 ∨ x ∈ l2) := by
  simp [sqUnion, List.mem_filter, List.mem_range]

theorem candidateLoop_cons_some_iff (api : ChessAPI B M) (b : B) (p : M → Bool)
    (c : Nat × Nat) (rest : List (Nat × Nat)) (m : M) :
    candidateLoop api b p (c :: rest) = some m ↔
      ((api.findMove b c.1 c.2 = some m ∧ p m = true)
       ∨ ((∀ m2, api.findMove b c.1 c.2 = some m2 → p m2 = false)
          ∧ candidateLoop api b p rest = some m)) := by
  cases hfm : api.findMove b c.1 c.2 with
  | none => simp [candidateLoop, findCandidateMove, hfm]
  | some m0 =>
    cases hp : p m0 with
    | true =>
      simp only [candidateLoop, findCandidateMove, hfm, hp, if_true]
      constructor
      · intro h
        exact Or.inl ⟨h, by injection h with h2; rw [← h2]; exact hp⟩
      · rintro (⟨h1, _⟩ | ⟨h1, _⟩)
        · exact h1
        · have := h1 m0 rfl; rw [hp] at this; cases this
    | false =>
      simp only [candidateLoop, findCandidateMove, hfm, hp, if_false]
      constructor
      · intro h
        refine Or.inr ⟨?_, h⟩
        intro m2 hm2
        injection hm2 with hm2; rw [← hm2]; exact hp
      · rintro (⟨h1, h2⟩ | ⟨_, h2⟩)
        · injection h1 with h1; rw [← h1] at h2; rw [hp] at h2; cases h2
        · exact h2

theorem candidateLoop_cons_none_iff (api : ChessAPI B M) (b : B) (p : M → Bool)
    (c : Nat × Nat) (rest : List (Nat × Nat)) :
    candidateLoop api b p (c :: rest) = none ↔
      ((∀ m2, api.findMove b c.1 c.2 = some m2 → p m2 = false)
       ∧ candidateLoop api b p rest = none) := by
  cases hfm : api.findMove b c.1 c.2 with
  | none => simp [candidateLoop, findCandidateMove, hfm]
  | some m0 =>
    cases hp : p m0 with
    | true =>
      simp only [candidateLoop, findCandidateMove, hfm, hp, if_true]
      constructor
      · intro h; cases h
      · rintro ⟨h1, _⟩
        have := h1 m0 rfl; rw [hp] at this; cases this
    | false =>
      simp only [candidateLoop, findCandidateMove, hfm, hp, if_false]
      constructor
      · intro h
        refine ⟨?_, h⟩
        intro m2 hm2; injection hm2 with hm2; rw [← hm2]; exact hp
      · rintro ⟨_, h2⟩; exact h2

theorem candidateLoop_nil (api : ChessAPI B M) (b : B) (p : M → Bool) :
    candidateLoop api b p [] = none := rfl

theorem candidateLoop_map_eq_some_iff (api : ChessAPI B M) (b : B) (p : M → Bool)
    (f : Nat) (tl : List Nat) (m : M) :
    candidateLoop api b p (tl.map (fun t => (f, t))) = some m ↔
      ∃ l1 t l2, tl = l1 ++ t :: l2 ∧ api.findMove b f t = some m ∧ p m = true ∧
        ∀ u ∈ l1, ∀ m2, api.findMove b f u = some m2 → p m2 = false := by
  induction tl with
  | nil =>
    constructor
    · intro h; simp [candidateLoop] at h
    · rintro ⟨l1, t, l2, hsplit, -⟩
      exact absurd hsplit (by cases l1 <;> simp)
  | cons hd rest ih =>
    rw [List.map_cons, candidateLoop_cons_some_iff, ih]
    constructor
    · rintro (⟨h1, h2⟩ | ⟨h0, l1, t, l2, hsplit, h1, h2, h3⟩)
      · refine ⟨[], hd, rest, rfl, h1, h2, ?_⟩
        intro u hu; cases hu
      · refine ⟨hd :: l1, t, l2, by rw [hsplit, List.cons_append], h1, h2, ?_⟩
        intro u hu m2 hm2
        rcases List.mem_cons.mp hu with rfl | hu2
        · exact h0 m2 hm2
        · exact h3 u hu2 m2 hm2
    · rintro ⟨l1, t, l2, hsplit, h1, h2, h3⟩
      cases l1 with
      | nil =>
        simp only [List.nil_append, List.cons.injEq] at hsplit
        obtain ⟨rfl, rfl⟩ := hsplit
        exact Or.inl ⟨h1, h2⟩
      | cons x l1x =>
        simp only [List.cons_append, List.cons.injEq] at hsplit
        obtain ⟨rfl, hrest⟩ := hsplit
        refine Or.inr ⟨?_, l1x, t, l2, hrest, h1, h2, ?_⟩
        · exact h3 hd (List.mem_cons_self _ _)
        · intro u hu m2 hm2
          exact h3 u (List.mem_cons_of_mem _ hu) m2 hm2

theorem candidateLoop_map_eq_none_iff (api : ChessAPI B M) (b : B) (p : M → Bool)
    (f : Nat) (tl : List Nat) :
    candidateLoop api b p (tl.map (fun t => (f, t))) = none ↔
      ∀ t ∈ tl, ∀ m2, api.findMove b f t = some m2 → p m2 = false := by
  induction tl with
  | nil => simp [candidateLoop]
  | cons hd rest ih =>
    rw [List.map_cons, candidateLoop_cons_none_iff, ih]
    constructor
    · rintro ⟨h0, h1⟩ t ht m2 hm2
      rcases List.mem_cons.mp ht with rfl | ht2
      · exact h0 m2 hm2
      · exact h1 t ht2 m2 hm2
    · intro h
      exact ⟨h hd (List.mem_cons_self _ _),
        fun t ht m2 hm2 => h t (List.mem_cons_of_mem _ ht) m2 hm2⟩

theorem tick_of_not_due (api : ChessAPI B M) (mh : Option (B → M → Bool))
    (now : Nat) (s : DSMRState B) (h : DSMR.due api now s = false) :
    DSMR.tick api mh now s = (s, []) := by
  simp [DSMR.tick, h]

theorem due_false_of_early (api : ChessAPI B M) (now : Nat) (s : DSMRState B)
    (h : now < s.timestamp + s.moveDelay) : DSMR.due api now s = false := by
  unfold DSMR.due
  rw [decide_eq_false (by omega : ¬ (s.timestamp + s.moveDelay ≤ now))]
  simp

/-- C1: for a snapshot that is not the starting pattern, frame intake in
    LiBoard.get_board_data completes and afterwards the physical position
    equals the snapshot, the Recognition Gate (pos_checked) is cleared, the
    pending timestamp (last_change) is set to now, and the lifted set equals
    its old value united with the squares occupied in the known position but
    not in the snapshot; the twin DoubleSidedMoveRecognizer.new_board_data,
    however, does not complete normally: it raises TypeError at the
    set += set line, after mutating physical, timestamp and pos_checked. -/
theorem C1_frame_intake (api : ChessAPI B M) (sh : Option (LBState B → Bool))
    (sh2 : Option (B → Bool)) (now bits : Nat) (s : LBState B) (d : DSMRState B)
    (hb : bits ≠ STARTING_POSITION) (hl : ∀ x ∈ s.lifted, x < 64) :
    ((LiBoard.get_board_data api sh now (some bits) s).1.physical = bits
      ∧ (LiBoard.get_board_data api sh now (some bits) s).1.posChecked = false
      ∧ (LiBoard.get_board_data api sh now (some bits) s).1.lastChange = now
      ∧ (LiBoard.get_board_data api sh now (some bits) s).1.known = s.known
      ∧ (LiBoard.get_board_data api sh now (some bits) s).1.board = s.board
      ∧ (∀ x, x ∈ (LiBoard.get_board_data api sh now (some bits) s).1.lifted ↔
          x ∈ s.lifted ∨ (x ∈ occupiedSquares s.known ∧ x ∉ occupiedSquares bits))
      ∧ (LiBoard.get_board_data api sh now (some bits) s).2 = [])
    ∧ DSMR.new_board_data api sh2 now bits d =
        .error { d with physical := bits, timestamp := now, posChecked := false } := by
  constructor
  · simp only [LiBoard.get_board_data, if_neg hb, true_and, and_true]
    intro x
    rw [mem_sqUnion]
    constructor
    · rintro ⟨-, hx | hx⟩
      · exact Or.inl hx
      · exact Or.inr (mem_sqDiff.mp hx)
    · rintro (hx | ⟨hk, hp⟩)
      · exact ⟨hl x hx, Or.inl hx⟩
      · exact ⟨(mem_occupiedSquares.mp hk).1, Or.inr (mem_sqDiff.mpr ⟨hk, hp⟩)⟩
  · simp only [DSMR.new_board_data, if_neg hb]

/-- C1 witness: intake of the empty-board snapshot on concrete states. -/
theorem C1_witness :
    ((2 : Nat) ≠ STARTING_POSITION ∧ ∀ x ∈ cex4.lifted, x < 64)
    ∧ (((LiBoard.get_board_data apiN none 3 (some 2) cex4).1.physical = 2
      ∧ (LiBoard.get_board_data apiN none 3 (some 2) cex4).1.posChecked = false
      ∧ (LiBoard.get_board_data apiN none 3 (some 2) cex4).1.lastChange = 3
      ∧ (LiBoard.get_board_data apiN none 3 (some 2) cex4).1.known = cex4.known
      ∧ (LiBoard.get_board_data apiN none 3 (some 2) cex4).1.board = cex4.board
      ∧ (∀ x, x ∈ (LiBoard.get_board_data apiN none 3 (some 2) cex4).1.lifted ↔
          x ∈ cex4.lifted ∨ (x ∈ occupiedSquares cex4.known ∧ x ∉ occupiedSquares 2))
      ∧ (LiBoard.get_board_data apiN none 3 (some 2) cex4).2 = [])
    ∧ DSMR.new_board_data apiN none 3 2 dsmr1 =
        .error { dsmr1 with physical := 2, timestamp := 3, posChecked := false }) :=
  ⟨⟨by decide, by decide⟩,
   C1_frame_intake apiN none none 3 2 cex4 dsmr1 (by decide) (by decide)⟩

/-- C2 (amended): when the incoming snapshot equals the starting pattern,
    the game-start path runs instead of move recognition; afterwards the
    known position is the starting pattern, the oracle board has been reset,
    the lifted set is empty and the start event is emitted — but the
    Recognition Gate (pos_checked) is not cleared, it retains its prior
    value.  Likewise for DoubleSidedMoveRecognizer.new_board_data. -/
theorem C2_game_start (api : ChessAPI B M) (h : LBState B → Bool) (h2 : B → Bool)
    (now : Nat) (s : LBState B) (d : DSMRState B) :
    (LiBoard.get_board_data api (some h) now (some STARTING_POSITION) s).1.known
        = STARTING_POSITION
    ∧ (LiBoard.get_board_data api (some h) now (some STARTING_POSITION) s).1.board
        = api.reset s.board
    ∧ (LiBoard.get_board_data api (some h) now (some STARTING_POSITION) s).1.lifted = []
    ∧ (LiBoard.get_board_data api (some h) now (some STARTING_POSITION) s).1.posChecked
        = s.posChecked
    ∧ (LiBoard.get_board_data api (some h) now (some STARTING_POSITION) s).2
        = [Event.start]
    ∧ DSMR.new_board_data api (some h2) now STARTING_POSITION d =
        .ok ({ d with
                physical := STARTING_POSITION, board := api.reset d.board,
                lifted := [] }, [Event.start]) :=
  ⟨rfl, rfl, rfl, rfl, rfl, rfl⟩

/-- C2 counterexample: a state whose Recognition Gate is set receives the
    starting-position snapshot; the claim says the gate is cleared, but it
    stays set after the game-start path. -/
theorem C2_counterexample :
    cex2.posChecked = true
    ∧ (LiBoard.get_board_data apiN (some (fun _ => true)) 11
        (some STARTING_POSITION) cex2).1.posChecked = true :=
  ⟨rfl, rfl⟩

/-- C4 (amended): frame intake clears the Recognition Gate and restarts the
    delay window on every arriving non-starting snapshot, whether or not it
    differs from the current physical position. -/
theorem C4_gate_cleared (api : ChessAPI B M) (sh : Option (LBState B → Bool))
    (now bits : Nat) (s : LBState B) (hb : bits ≠ STARTING_POSITION) :
    (LiBoard.get_board_data api sh now (some bits) s).1.posChecked = false
    ∧ (LiBoard.get_board_data api sh now (some bits) s).1.lastChange = now := by
  simp [LiBoard.get_board_data, hb]

/-- C4 witness: the gate is cleared and the window restarted by a concrete
    non-starting snapshot. -/
theorem C4_witness :
    (3 : Nat) ≠ STARTING_POSITION
    ∧ (LiBoard.get_board_data apiN none 9 (some 3) cex2).1.posChecked = false
    ∧ (LiBoard.get_board_data apiN none 9 (some 3) cex2).1.lastChange = 9 :=
  ⟨by decide, C4_gate_cleared apiN none 9 3 cex2 (by decide)⟩

/-- C4 counterexample: the state cex4 already has physical position 2 and
    its gate set (a failed attempt); the board re-sends the identical
    snapshot 2, yet the gate is cleared — the claim says it is cleared only
    when the arriving snapshot differs — and once the new delay window has
    elapsed the recognizer is due again, so a second classification attempt
    is made between the same two distinct positions. -/
theorem C4_counterexample :
    cex4.physical = 2 ∧ cex4.posChecked = true
    ∧ (LiBoard.get_board_data apiN none 5 (some 2) cex4).1.posChecked = false
    ∧ LiBoard.isDue (5 + 1 * 1000000)
        (LiBoard.get_board_data apiN none 5 (some 2) cex4).1 = true :=
  ⟨rfl, rfl, rfl, by decide⟩

/-- C3: debounce.  Take a recognizer state whose physical position diverged
    from the board occupancy at time t (timestamp t, gate unset) with
    configured delay D > 0, and a run of ticks at times all earlier than
    t + D followed by one tick at time t2 ≥ t + D, with no frame arriving in
    between.  Then the early ticks leave the state unchanged, none of them
    satisfies the classification guard (no call into move generation), and
    at the tick at t2 the guard holds — the divergence persists and the
    Recognition Gate is still unset — so a classification attempt is made
    there. -/
theorem C3_debounce (api : ChessAPI B M) (mh : Option (B → M → Bool))
    (s0 : DSMRState B) (t D : Nat) (_hD : 0 < D) (hdel : s0.moveDelay = D)
    (hts : s0.timestamp = t) (hgate : s0.posChecked = false)
    (hdiv : s0.physical ≠ api.occupied s0.board)
    (ts : List Nat) (hlt : ∀ x ∈ ts, x < t + D) (t2 : Nat) (ht2 : t + D ≤ t2) :
    DSMR.runTicks api mh s0 ts = s0
    ∧ (∀ x ∈ ts, DSMR.due api x s0 = false)
    ∧ DSMR.due api t2 (DSMR.runTicks api mh s0 ts) = true := by
  have hdue : ∀ x ∈ ts, DSMR.due api x s0 = false := by
    intro x hx
    exact due_false_of_early api x s0 (by rw [hts, hdel]; exact hlt x hx)
  have hrun : DSMR.runTicks api mh s0 ts = s0 := by
    clear ht2
    induction ts with
    | nil => rfl
    | cons hd rest ih =>
      have h1 : DSMR.tick api mh hd s0 = (s0, []) :=
        tick_of_not_due api mh hd s0 (hdue hd (List.mem_cons_self _ _))
      show DSMR.runTicks api mh (DSMR.tick api mh hd s0).1 rest = s0
      rw [h1]
      exact ih (fun x hx => hlt x (List.mem_cons_of_mem _ hx))
          (fun x hx => hdue x (List.mem_cons_of_mem _ hx))
  refine ⟨hrun, hdue, ?_⟩
  rw [hrun]
  unfold DSMR.due
  rw [hgate,
      decide_eq_true (show s0.timestamp + s0.moveDelay ≤ t2 by
        rw [hts, hdel]; exact ht2),
      decide_eq_true hdiv]
  rfl

/-- C3 witness: a concrete diverged state with delay 5, ticks at times 1
    and 4 (no attempt), then a tick at time 5 (attempt due). -/
theorem C3_witness :
    ((0 : Nat) < 5 ∧ dsmr3.moveDelay = 5 ∧ dsmr3.timestamp = 0
      ∧ dsmr3.posChecked = false ∧ dsmr3.physical ≠ apiN.occupied dsmr3.board
      ∧ (∀ x ∈ [1, 4], x < 0 + 5) ∧ 0 + 5 ≤ 5)
    ∧ (DSMR.runTicks apiN none dsmr3 [1, 4] = dsmr3
      ∧ (∀ x ∈ [1, 4], DSMR.due apiN x dsmr3 = false)
      ∧ DSMR.due apiN 5 (DSMR.runTicks apiN none dsmr3 [1, 4]) = true) :=
  ⟨⟨by decide, rfl, rfl, rfl, by decide, by decide, by decide⟩,
   C3_debounce apiN none dsmr3 0 5 (by decide) rfl rfl rfl (by decide) [1, 4]
     (by decide) 5 (by decide)⟩

/-- C5: for a delta of exactly one disappeared square f and one appeared
    square a, the classifier queries the oracle for a legal move from f to a
    and returns it exactly when the oracle finds one that it classifies as
    neither a capture nor a castling move, and otherwise returns no move;
    under the oracle contract that find_move only yields legal moves,
    LiBoard.generate_move commits exactly in the same case, pushing the
    move and setting the known position to the physical position. -/
theorem C5_quiet_move (api : ChessAPI B M) (mh : Option (LBState B → M → Bool))
    (b : B) (f a : Nat) (tl : List Nat) (s : LBState B)
    (hd : sqDiff (occupiedSquares s.known) (occupiedSquares s.physical) = [f])
    (ha : sqDiff (occupiedSquares s.physical) (occupiedSquares s.known) = [a])
    (hwf : ∀ m, api.findMove s.board f a = some m → api.isLegal s.board m = true) :
    (∀ m : M, MoveRecognizer.find_move api b [a] [f] tl = some m ↔
      (api.findMove b f a = some m ∧ api.isCapture b m = false
        ∧ api.isCastling b m = false))
    ∧ ((LiBoard.generate_move api mh s).2.1 = true ↔
      ∃ m, api.findMove s.board f a = some m ∧ api.isCapture s.board m = false
        ∧ api.isCastling s.board m = false)
    ∧ (∀ m, api.findMove s.board f a = some m → api.isCapture s.board m = false →
        api.isCastling s.board m = false →
        (LiBoard.generate_move api mh s).1.board = api.push s.board m
        ∧ (LiBoard.generate_move api mh s).1.known = s.physical) := by
  have hclass : ∀ m : M, MoveRecognizer.find_move api b [a] [f] tl = some m ↔
      (api.findMove b f a = some m ∧ api.isCapture b m = false
        ∧ api.isCastling b m = false) := by
    intro m
    have hq : MoveRecognizer.find_move api b [a] [f] tl =
        (match api.findMove b f a with
         | some m0 =>
           if !api.isCapture b m0 && !api.isCastling b m0 then some m0 else none
         | none => none) := rfl
    rw [hq]
    cases hfm : api.findMove b f a with
    | none => simp
    | some m0 =>
      cases hc : api.isCapture b m0 with
      | true =>
        simp only [hc, Bool.not_true, Bool.false_and, if_false]
        constructor
        · intro h; simp at h
        · rintro ⟨h1, h2, -⟩
          injection h1 with h1; subst h1; rw [hc] at h2; cases h2
      | false =>
        cases hcs : api.isCastling b m0 with
        | true =>
          simp only [hcs, Bool.not_true, Bool.and_false, if_false]
          constructor
          · intro h; simp at h
          · rintro ⟨h1, -, h3⟩
            injection h1 with h1; subst h1; rw [hcs] at h3; cases h3
        | false =>
          simp only [hc, hcs, Bool.not_false, Bool.and_true, if_true]
          constructor
          · intro h
            refine ⟨h, ?_, ?_⟩ <;> injection h with h <;> subst h
            · exact hc
            · exact hcs
          · rintro ⟨h1, -, -⟩; exact h1
  have hgen : LiBoard.generate_move api mh s =
      (match api.findMove s.board f a with
       | some m0 =>
         if !api.isCapture s.board m0 && !api.isCastling s.board m0 then
           LiBoard.make_move api mh m0 { s with posChecked := true }
         else ({ s with posChecked := true }, false, [])
       | none => ({ s with posChecked := true }, false, [])) := by
    unfold LiBoard.generate_move
    simp only
    rw [hd, ha]
    rfl
  refine ⟨hclass, ?_, ?_⟩
  · rw [hgen]
    cases hfm : api.findMove s.board f a with
    | none => simp
    | some m0 =>
      cases hc : api.isCapture s.board m0 with
      | true =>
        simp only [hc, Bool.not_true, Bool.false_and, if_false]
        constructor
        · intro h; simp at h
        · rintro ⟨m, h1, h2, -⟩
          injection h1 with h1; subst h1; rw [hc] at h2; cases h2
      | false =>
        cases hcs : api.isCastling s.board m0 with
        | true =>
          simp only [hcs, Bool.not_true, Bool.and_false, if_false]
          constructor
          · intro h; simp at h
          · rintro ⟨m, h1, -, h3⟩
            injection h1 with h1; subst h1; rw [hcs] at h3; cases h3
        | false =>
          have hleg : api.isLegal s.board m0 = true := hwf m0 hfm
          simp only [hc, hcs, Bool.not_false, Bool.and_true, if_true,
            LiBoard.make_move, hleg]
          constructor
          · intro _; exact ⟨m0, rfl, hc, hcs⟩
          · intro _; trivial
  · intro m hm hc hcs
    have hleg : api.isLegal s.board m = true := hwf m hm
    rw [hgen, hm]
    simp only [hc, hcs, Bool.not_false, Bool.and_true, if_true,
      LiBoard.make_move, hleg]
    constructor <;> trivial

/-- C5 witness: on a concrete state whose delta is disappearance a1 and
    appearance b1, with the oracle proposing the legal quiet move 5. -/
theorem C5_witness :
    (sqDiff (occupiedSquares lb5.known) (occupiedSquares lb5.physical) = [0]
      ∧ sqDiff (occupiedSquares lb5.physical) (occupiedSquares lb5.known) = [1]
      ∧ (∀ m, apiC.findMove lb5.board 0 1 = some m →
          apiC.isLegal lb5.board m = true))
    ∧ ((∀ m : Nat, MoveRecognizer.find_move apiC 0 [1] [0] [] = some m ↔
        (apiC.findMove 0 0 1 = some m ∧ apiC.isCapture 0 m = false
          ∧ apiC.isCastling 0 m = false))
      ∧ ((LiBoard.generate_move apiC none lb5).2.1 = true ↔
        ∃ m, apiC.findMove lb5.board 0 1 = some m
          ∧ apiC.isCapture lb5.board m = false
          ∧ apiC.isCastling lb5.board m = false)
      ∧ (∀ m, apiC.findMove lb5.board 0 1 = some m →
          apiC.isCapture lb5.board m = false →
          apiC.isCastling lb5.board m = false →
          (LiBoard.generate_move apiC none lb5).1.board = apiC.push lb5.board m
          ∧ (LiBoard.generate_move apiC none lb5).1.known = lb5.physical)) :=
  ⟨⟨by decide, by decide, fun m _ => rfl⟩,
   C5_quiet_move apiC none 0 0 1 [] lb5 (by decide) (by decide) (fun m _ => rfl)⟩

/-- C6: for a delta of exactly one disappeared square f and no appeared
    squares, with a nonempty temporarily-lifted list, the classifier takes f
    as origin, tries each temporarily-lifted square as destination in
    iteration order, and returns the first oracle-legal move that the oracle
    classifies as a capture; it returns no move when no destination
    qualifies. -/
theorem C6_simple_capture (api : ChessAPI B M) (b : B) (f : Nat) (tl : List Nat)
    (htl : tl ≠ []) :
    (∀ m : M, MoveRecognizer.find_move api b [] [f] tl = some m ↔
      ∃ l1 t l2, tl = l1 ++ t :: l2 ∧ api.findMove b f t = some m
        ∧ api.isCapture b m = true
        ∧ ∀ u ∈ l1, ∀ m2, api.findMove b f u = some m2 →
            api.isCapture b m2 = false)
    ∧ (MoveRecognizer.find_move api b [] [f] tl = none ↔
      ∀ t ∈ tl, ∀ m2, api.findMove b f t = some m2 →
        api.isCapture b m2 = false) := by
  have hq : MoveRecognizer.find_move api b [] [f] tl =
      candidateLoop api b (api.isCapture b) (tl.map (fun t => (f, t))) := by
    have hq2 : MoveRecognizer.find_move api b [] [f] tl =
        (if tl = [] then none
         else candidateLoop api b (api.isCapture b) (tl.map (fun t => (f, t)))) :=
      rfl
    rw [hq2, if_neg htl]
  constructor
  · intro m
    rw [hq]
    exact candidateLoop_map_eq_some_iff api b (api.isCapture b) f tl m
  · rw [hq]
    exact candidateLoop_map_eq_none_iff api b (api.isCapture b) f tl

/-- C6 witness: with temporarily-lifted squares c1 and d1 and an oracle
    proposing the legal capture 7 everywhere, the first destination wins. -/
theorem C6_witness :
    ([2, 3] : List Nat) ≠ []
    ∧ ((∀ m : Nat, MoveRecognizer.find_move apiCap 0 [] [0] [2, 3] = some m ↔
        ∃ l1 t l2, ([2, 3] : List Nat) = l1 ++ t :: l2
          ∧ apiCap.findMove 0 0 t = some m
          ∧ apiCap.isCapture 0 m = true
          ∧ ∀ u ∈ l1, ∀ m2, apiCap.findMove 0 0 u = some m2 →
              apiCap.isCapture 0 m2 = false)
      ∧ (MoveRecognizer.find_move apiCap 0 [] [0] [2, 3] = none ↔
        ∀ t ∈ ([2, 3] : List Nat), ∀ m2, apiCap.findMove 0 0 t = some m2 →
          apiCap.isCapture 0 m2 = false)) :=
  ⟨by decide, C6_simple_capture apiCap 0 0 [2, 3] (by decide)⟩

/-- There is no legal move between the two squares that the oracle
    classifies as castling. -/
def noCastle (api : ChessAPI B M) (b : B) (f a : Nat) : Prop :=
  ∀ m2, api.findMove b f a = some m2 → api.isCastling b m2 = false

theorem noCastle_of_none (api : ChessAPI B M) (b : B) (f a : Nat)
    (h : api.findMove b f a = none) : noCastle api b f a := by
  intro m2 hm2; rw [h] at hm2; cases hm2

theorem noCastle_of_flag (api : ChessAPI B M) (b : B) (f a : Nat) (m0 : M)
    (h : api.findMove b f a = some m0) (hf : api.isCastling b m0 = false) :
    noCastle api b f a := by
  intro m2 hm2; rw [h] at hm2; injection hm2 with hm2; subst hm2; exact hf

theorem not_noCastle (api : ChessAPI B M) (b : B) (f a : Nat) (m0 : M)
    (h : api.findMove b f a = some m0) (hf : api.isCastling b m0 = true) :
    ¬ noCastle api b f a := by
  intro hn
  have := hn m0 h
  rw [hf] at this; cases this

/-- C7: for a delta of exactly two disappeared squares f1, f2 and two
    appeared squares a1, a2, the classifier tries the four pairs in the
    order (f1,a1), (f1,a2), (f2,a1), (f2,a2) and accepts the first
    oracle-legal move classified as castling; if no pair yields such a move,
    no move is returned. -/
theorem C7_castling (api : ChessAPI B M) (b : B) (f1 f2 a1 a2 : Nat)
    (tl : List Nat) :
    (∀ m : M, MoveRecognizer.find_move api b [a1, a2] [f1, f2] tl = some m ↔
      ((api.findMove b f1 a1 = some m ∧ api.isCastling b m = true)
      ∨ (noCastle api b f1 a1
          ∧ api.findMove b f1 a2 = some m ∧ api.isCastling b m = true)
      ∨ (noCastle api b f1 a1 ∧ noCastle api b f1 a2
          ∧ api.findMove b f2 a1 = some m ∧ api.isCastling b m = true)
      ∨ (noCastle api b f1 a1 ∧ noCastle api b f1 a2 ∧ noCastle api b f2 a1
          ∧ api.findMove b f2 a2 = some m ∧ api.isCastling b m = true)))
    ∧ (MoveRecognizer.find_move api b [a1, a2] [f1, f2] tl = none ↔
      (noCastle api b f1 a1 ∧ noCastle api b f1 a2 ∧ noCastle api b f2 a1
        ∧ noCastle api b f2 a2)) := by
  have hq : MoveRecognizer.find_move api b [a1, a2] [f1, f2] tl =
      candidateLoop api b (api.isCastling b)
        [(f1, a1), (f1, a2), (f2, a1), (f2, a2)] := rfl
  have hsome : ∀ (c : Nat × Nat) (rest : List (Nat × Nat)) (m : M),
      candidateLoop api b (api.isCastling b) (c :: rest) = some m ↔
        ((api.findMove b c.1 c.2 = some m ∧ api.isCastling b m = true)
         ∨ (noCastle api b c.1 c.2
            ∧ candidateLoop api b (api.isCastling b) rest = some m)) := by
    intro c rest m
    rw [candidateLoop_cons_some_iff]
    rfl
  have hnone : ∀ (c : Nat × Nat) (rest : List (Nat × Nat)),
      candidateLoop api b (api.isCastling b) (c :: rest) = none ↔
        (noCastle api b c.1 c.2
         ∧ candidateLoop api b (api.isCastling b) rest = none) := by
    intro c rest
    rw [candidateLoop_cons_none_iff]
    rfl
  constructor
  · intro m
    rw [hq, hsome, hsome, hsome, hsome]
    have hnil : candidateLoop api b (api.isCastling b) [] = some m ↔ False := by
      simp [candidateLoop]
    rw [hnil]
    tauto
  · rw [hq, hnone, hnone, hnone, hnone]
    have hnil : candidateLoop api b (api.isCastling b) [] = none ↔ True := by
      simp [candidateLoop]
    rw [hnil]
    tauto

/-- C8 (amended): in LiBoard.make_move a move is re-validated against the
    oracle before committing; if it is not legal, the whole state — known
    position, lifted set, oracle board and Recognition Gate — is unchanged,
    no move event is emitted, and the operation reports failure.  (The twin
    commit in DoubleSidedMoveRecognizer.tick performs no such re-validation;
    see the counterexample.) -/
theorem C8_reject_illegal (api : ChessAPI B M)
    (mh : Option (LBState B → M → Bool)) (m : M) (s : LBState B)
    (h : api.isLegal s.board m = false) :
    LiBoard.make_move api mh m s = (s, false, []) := by
  unfold LiBoard.make_move
  rw [h]
  rfl

/-- C8 witness: a concrete illegal move is rejected with no state change. -/
theorem C8_witness :
    apiB.isLegal cex4.board 42 = false
    ∧ LiBoard.make_move apiB none 42 cex4 = (cex4, false, []) :=
  ⟨rfl, C8_reject_illegal apiB none 42 cex4 rfl⟩

/-- C8 counterexample: the oracle apiB reports every move illegal, yet
    DoubleSidedMoveRecognizer.tick pushes the classifier result 42 onto the
    board (board changes from 0 to 1) and emits the move event — no legality
    re-validation takes place on that path, contradicting the claim that an
    illegal move leaves the state unchanged with no event. -/
theorem C8_counterexample :
    apiB.isLegal dsmr8.board 42 = false
    ∧ (DSMR.tick apiB (some gT) 0 dsmr8).1.board = 1
    ∧ dsmr8.board = 0
    ∧ (DSMR.tick apiB (some gT) 0 dsmr8).2 = [Event.move 42] :=
  ⟨rfl, by decide, rfl, by decide⟩

/-- C9: after every accepted move, LiBoard.make_move leaves the known
    position bit-for-bit equal to the physical position and the lifted set
    empty; likewise a committing DoubleSidedMoveRecognizer.tick (one that
    emits a move event) clears the lifted set, and its board is the old
    board with the move pushed. -/
theorem C9_round_trip (api : ChessAPI B M) (mh : Option (LBState B → M → Bool))
    (g : B → M → Bool) (m m2 : M) (s : LBState B) (d : DSMRState B) (now : Nat)
    (h1 : (LiBoard.make_move api mh m s).2.1 = true)
    (h2 : (DSMR.tick api (some g) now d).2 = [Event.move m2]) :
    (LiBoard.make_move api mh m s).1.known = (LiBoard.make_move api mh m s).1.physical
    ∧ (LiBoard.make_move api mh m s).1.lifted = []
    ∧ (DSMR.tick api (some g) now d).1.lifted = []
    ∧ (DSMR.tick api (some g) now d).1.board = api.push d.board m2 := by
  have hLB : (LiBoard.make_move api mh m s).1.known
        = (LiBoard.make_move api mh m s).1.physical
      ∧ (LiBoard.make_move api mh m s).1.lifted = [] := by
    cases hleg : api.isLegal s.board m with
    | false =>
      have hf : LiBoard.make_move api mh m s = (s, false, []) := by
        unfold LiBoard.make_move
        rw [hleg]
        rfl
      rw [hf] at h1
      cases h1
    | true =>
      unfold LiBoard.make_move
      rw [hleg]
      exact ⟨rfl, rfl⟩
  refine ⟨hLB.1, hLB.2, ?_⟩
  cases hdue : DSMR.due api now d with
  | false =>
    rw [tick_of_not_due api (some g) now d hdue] at h2
    cases h2
  | true =>
    have hq : DSMR.tick api (some g) now d =
        (match MoveRecognizer.find_move api d.board
            (sqDiff (occupiedSquares d.physical)
              (occupiedSquares (api.occupied d.board)))
            (sqDiff (occupiedSquares (api.occupied d.board))
              (occupiedSquares d.physical))
            (sqInter d.lifted (occupiedSquares d.physical)) with
         | some m0 =>
           ({ d with posChecked := true, board := api.push d.board m0,
                     lifted := [] }, [Event.move m0])
         | none => ({ d with posChecked := true }, [])) := by
      unfold DSMR.tick
      rw [hdue]
      rfl
    rw [hq] at h2 ⊢
    cases hfind : MoveRecognizer.find_move api d.board
        (sqDiff (occupiedSquares d.physical)
          (occupiedSquares (api.occupied d.board)))
        (sqDiff (occupiedSquares (api.occupied d.board))
          (occupiedSquares d.physical))
        (sqInter d.lifted (occupiedSquares d.physical)) with
    | none =>
      rw [hfind] at h2
      exact List.noConfusion h2
    | some m0 =>
      rw [hfind] at h2
      have hm : m0 = m2 := by
        have h2b : [Event.move m0] = [Event.move m2] := h2
        injection h2b with h3 h4
        injection h3 with h3
      subst hm
      exact ⟨rfl, rfl⟩

/-- C9 witness: a concrete accepted quiet move on both implementations. -/
theorem C9_witness :
    ((LiBoard.make_move apiC none 5 lb5).2.1 = true
      ∧ (DSMR.tick apiC (some gT) 0 dsmr9).2 = [Event.move 5])
    ∧ ((LiBoard.make_move apiC none 5 lb5).1.known
        = (LiBoard.make_move apiC none 5 lb5).1.physical
      ∧ (LiBoard.make_move apiC none 5 lb5).1.lifted = []
      ∧ (DSMR.tick apiC (some gT) 0 dsmr9).1.lifted = []
      ∧ (DSMR.tick apiC (some gT) 0 dsmr9).1.board = apiC.push dsmr9.board 5) :=
  ⟨⟨rfl, by decide⟩, C9_round_trip apiC none gT 5 5 lb5 dsmr9 0 rfl (by decide)⟩

/-- Handler independence of LiBoard.make_move: the handler result is
    discarded. -/
theorem make_move_handler_irrel (api : ChessAPI B M)
    (j1 j2 : LBState B → M → Bool) (m : M) (s : LBState B) :
    LiBoard.make_move api (some j1) m s = LiBoard.make_move api (some j2) m s :=
  rfl

/-- Handler independence of the simple-capture loop. -/
theorem tryCaptures_handler_irrel (api : ChessAPI B M)
    (j1 j2 : LBState B → M → Bool) (f : Nat) (s : LBState B) (l : List Nat) :
    LiBoard.tryCaptures api (some j1) f s l
      = LiBoard.tryCaptures api (some j2) f s l := by
  induction l with
  | nil => rfl
  | cons hd rest ih =>
    simp only [LiBoard.tryCaptures]
    cases hfm : findCandidateMove api s.board f hd with
    | none => exact ih
    | some m =>
      simp only []
      cases hc : api.isCapture s.board m with
      | false => exact ih
      | true =>
        rw [make_move_handler_irrel api j1 j2 m s]
        cases hmm : LiBoard.make_move api (some j2) m s with
        | mk s2 p =>
          cases p with
          | mk b ev =>
            cases b
            · exact ih
            · rfl

/-- Handler independence of the en-passant loop. -/
theorem tryEnPassants_handler_irrel (api : ChessAPI B M)
    (j1 j2 : LBState B → M → Bool) (a : Nat) (s : LBState B) (l : List Nat) :
    LiBoard.tryEnPassants api (some j1) a s l
      = LiBoard.tryEnPassants api (some j2) a s l := by
  induction l with
  | nil => rfl
  | cons hd rest ih =>
    simp only [LiBoard.tryEnPassants]
    cases hfm : findCandidateMove api s.board hd a with
    | none => exact ih
    | some m =>
      simp only []
      cases hc : api.isEnPassant s.board m with
      | false => exact ih
      | true =>
        rw [make_move_handler_irrel api j1 j2 m s]
        cases hmm : LiBoard.make_move api (some j2) m s with
        | mk s2 p =>
          cases p with
          | mk b ev =>
            cases b
            · exact ih
            · rfl

/-- Handler independence of the inner castling loop. -/
theorem tryCastlingsInner_handler_irrel (api : ChessAPI B M)
    (j1 j2 : LBState B → M → Bool) (f : Nat) (s : LBState B) (l : List Nat) :
    LiBoard.tryCastlingsInner api (some j1) f s l
      = LiBoard.tryCastlingsInner api (some j2) f s l := by
  induction l with
  | nil => rfl
  | cons hd rest ih =>
    simp only [LiBoard.tryCastlingsInner]
    cases hfm : findCandidateMove api s.board f hd with
    | none => exact ih
    | some m =>
      simp only []
      cases hc : api.isCastling s.board m with
      | false => exact ih
      | true => rfl

/-- Handler independence of the outer castling loop. -/
theorem tryCastlings_handler_irrel (api : ChessAPI B M)
    (j1 j2 : LBState B → M → Bool) (s : LBState B) (app l : List Nat) :
    LiBoard.tryCastlings api (some j1) s app l
      = LiBoard.tryCastlings api (some j2) s app l := by
  induction l with
  | nil => rfl
  | cons f rest ih =>
    simp only [LiBoard.tryCastlings]
    rw [tryCastlingsInner_handler_irrel api j1 j2 f s app]
    cases hin : LiBoard.tryCastlingsInner api (some j2) f s app with
    | none => exact ih
    | some r => rfl

/-- Handler independence of LiBoard.generate_move. -/
theorem generate_move_handler_irrel (api : ChessAPI B M)
    (j1 j2 : LBState B → M → Bool) (s : LBState B) :
    LiBoard.generate_move api (some j1) s
      = LiBoard.generate_move api (some j2) s := by
  unfold LiBoard.generate_move
  simp only
  rcases sqDiff (occupiedSquares s.known) (occupiedSquares s.physical) with
    _ | ⟨f, _ | ⟨f2, _ | ⟨f3, drest⟩⟩⟩ <;>
  rcases sqDiff (occupiedSquares s.physical) (occupiedSquares s.known) with
    _ | ⟨a, _ | ⟨a2, _ | ⟨a3, arest⟩⟩⟩ <;>
  (try simp only []) <;> try rfl
  by_cases he : sqInter s.lifted (occupiedSquares s.physical) = []
  · rw [if_pos he, if_pos he]
  · rw [if_neg he, if_neg he]
    exact tryCaptures_handler_irrel api j1 j2 f _ _

/-- Handler independence of LiBoard.update. -/
theorem update_handler_irrel (api : ChessAPI B M)
    (h1 h2 : LBState B → Bool) (j1 j2 : LBState B → M → Bool)
    (now : Nat) (frame : Option Nat) (s : LBState B) :
    LiBoard.update api (some h1) (some j1) now frame s
      = LiBoard.update api (some h2) (some j2) now frame s := by
  unfold LiBoard.update
  simp only
  rw [show LiBoard.get_board_data api (some h1) now frame s
        = (LiBoard.get_board_data api (some h2) now frame s :
            LBState B × List (Event M)) from rfl,
      generate_move_handler_irrel api j1 j2]

/-- C10: the boolean returned by a registered start or move handler never
    influences the core.  Any two runs of the same operation that differ
    only in the handler functions produce identical states, identical return
    values and identical event traces, in both implementations: the handler
    is notified but cannot veto or alter a commit. -/
theorem C10_handler_independence (api : ChessAPI B M)
    (h1 h2 : LBState B → Bool) (j1 j2 : LBState B → M → Bool)
    (k1 k2 : B → Bool) (g1 g2 : B → M → Bool)
    (s : LBState B) (d : DSMRState B) (m : M) (now : Nat) (frame : Option Nat) :
    LiBoard.start_game api (some h1) s
        = (LiBoard.start_game api (some h2) s : LBState B × List (Event M))
    ∧ LiBoard.make_move api (some j1) m s = LiBoard.make_move api (some j2) m s
    ∧ LiBoard.update api (some h1) (some j1) now frame s
        = LiBoard.update api (some h2) (some j2) now frame s
    ∧ DSMR.start_game api (some k1) d
        = (DSMR.start_game api (some k2) d : DSMRState B × List (Event M))
    ∧ DSMR.new_board_data api (some k1) now 0 d
        = DSMR.new_board_data api (some k2) now 0 d
    ∧ DSMR.tick api (some g1) now d = DSMR.tick api (some g2) now d :=
  ⟨rfl, rfl, update_handler_irrel api h1 h2 j1 j2 now frame s, rfl, rfl, rfl⟩
